import Mathlib

/-!
Verification of the XYZ-segmentation core of the SAP-IBP segmentation
service, shallowly embedded from the Python source.

Sources embedded here:
* `app/services/dynamic_analysis_service.py`
  (`calculate_dynamic_xyz_segmentation`, `_remove_outliers`,
  `preview_segmentation`)
* `app/services/sap_write_service.py`
  (`_prepare_payload`, `write_segments_simple`, `write_segments_batched`,
  `write_segments_parallel`, `_send_batch_parallel`)

Numeric modelling: pandas/NumPy float columns are modelled by `FVal`:
an exact rational together with the three IEEE special values `inf`,
`neginf` and `nan` that the edge-case handling of the source depends on
(division by zero, `fillna`, `replace([inf, -inf], ...)`, NaN-poisoned
comparisons).  Square roots (pandas `std`, scipy `zscore`) use `Rat.sqrt`,
which is exact on perfect rational squares; the theorems below rely only
on values of `std` that are exact (zero, and squares of rationals), never
on a rounded magnitude.
-/

namespace XYZSeg

/-- Model of an IEEE-754 double as it appears in a pandas float column:
either an exact finite value, or one of the special values produced by the
edge cases in the source (`inf`/`-inf` from division by zero, `NaN` from
`0/0` and from undefined sample statistics). -/
inductive FVal where
  | num (q : ℚ)
  | inf
  | neginf
  | nan
deriving DecidableEq, Repr

namespace FVal

/-- Float division as used for `group_stats['std'] / group_stats['mean']`
and for the z-score quotient: division by zero gives a signed infinity,
`0/0` gives NaN, and NaN is absorbing. -/
def fdiv : FVal → FVal → FVal
  | nan, _ => nan
  | _, nan => nan
  | num a, num b =>
      if b ≠ 0 then num (a / b)
      else if a > 0 then inf
      else if a < 0 then neginf
      else nan
  | num _, inf => num 0
  | num _, neginf => num 0
  | inf, num b => if b < 0 then neginf else inf
  | neginf, num b => if b < 0 then inf else neginf
  | inf, inf => nan
  | inf, neginf => nan
  | neginf, inf => nan
  | neginf, neginf => nan

/-- Float multiplication (used for `* 100`): infinities keep their sign
against a nonzero finite factor, `0 * inf` is NaN, NaN is absorbing. -/
def fmul : FVal → FVal → FVal
  | nan, _ => nan
  | _, nan => nan
  | num a, num b => num (a * b)
  | num a, inf => if a > 0 then inf else if a < 0 then neginf else nan
  | num a, neginf => if a > 0 then neginf else if a < 0 then inf else nan
  | inf, num b => if b > 0 then inf else if b < 0 then neginf else nan
  | neginf, num b => if b > 0 then neginf else if b < 0 then inf else nan
  | inf, inf => inf
  | neginf, neginf => inf
  | inf, neginf => neginf
  | neginf, inf => neginf

/-- Absolute value (`np.abs` over a float column); `|NaN| = NaN`. -/
def fabs : FVal → FVal
  | num q => num |q|
  | inf => inf
  | neginf => inf
  | nan => nan

/-- NumPy comparison `v <= x` against a finite threshold: NaN compares
false, `-inf <= x` is true, `inf <= x` is false. -/
def fleB : FVal → ℚ → Bool
  | num q, x => decide (q ≤ x)
  | inf, _ => false
  | neginf, _ => true
  | nan, _ => false

/-- NumPy comparison `x < v` for a finite `x`: NaN compares false. -/
def fltB : ℚ → FVal → Bool
  | x, num q => decide (x < q)
  | _, inf => true
  | _, neginf => false
  | _, nan => false

/-- NumPy comparison `v < t` against a finite threshold (used for
`z_scores < config.outlier_threshold`): NaN compares false, so a NaN
z-score fails the keep-filter. -/
def fltThB : FVal → ℚ → Bool
  | num q, t => decide (q < t)
  | inf, _ => false
  | neginf, _ => true
  | nan, _ => false

end FVal

open FVal

/-- Segment labels produced by `np.select(conditions, ['X','Y','Z'],
default='Unknown')`. -/
inductive Segment where
  | X
  | Y
  | Z
  | Unknown
deriving DecidableEq, Repr

/-- Embedding of `SegmentationConfig` (pydantic model in
`app/models/segmentation_schemas.py`): the fields consumed by the
analysis service. -/
structure SegmentationConfig where
  groupby_attributes : List String
  x_threshold : ℚ
  y_threshold : ℚ
  min_periods : ℕ
  remove_outliers : Bool
  outlier_threshold : ℚ
deriving DecidableEq, Repr

/-- The pydantic field bounds and validators of `SegmentationConfig`:
`x_threshold`, `y_threshold` ∈ [0, 100], `y_threshold > x_threshold`
(the `validate_thresholds` validator), `min_periods ≥ 3`, and
`outlier_threshold` ∈ [1.5, 5.0]. -/
def ConfigValid (c : SegmentationConfig) : Prop :=
  0 ≤ c.x_threshold ∧ c.x_threshold ≤ 100 ∧
  0 ≤ c.y_threshold ∧ c.y_threshold ≤ 100 ∧
  c.x_threshold < c.y_threshold ∧
  3 ≤ c.min_periods ∧
  3 / 2 ≤ c.outlier_threshold ∧ c.outlier_threshold ≤ 5

instance (c : SegmentationConfig) : Decidable (ConfigValid c) := by
  unfold ConfigValid; infer_instance

/-- One row of the analysis DataFrame: the dimension cells (column name to
string value) and the numeric `ACTUALSQTY` observation. -/
structure Row where
  cells : List (String × String)
  qty : ℚ
deriving DecidableEq, Repr

/-- The analysis DataFrame: a column list (present even when there are no
rows, as in pandas) and the rows. -/
structure Frame where
  columns : List String
  rows : List Row
deriving DecidableEq, Repr

/-- Grouping key of a row under `df.groupby(groupby_attributes)`: the
tuple of the row's values at the grouping columns. -/
def keyOf (attrs : List String) (r : Row) : List (Option String) :=
  attrs.map (fun a => r.cells.lookup a)

/-- First-occurrence deduplication, used to enumerate the distinct group
keys of a grouped DataFrame. -/
def dedupKeys {α : Type} [DecidableEq α] : List α → List α
  | [] => []
  | a :: l => a :: (dedupKeys (l.filter (· ≠ a)))
termination_by l => l.length
decreasing_by
  exact Nat.lt_succ_of_le (List.length_filter_le _ _)

/-- The groups of `df.groupby(attrs)`: each distinct key together with the
rows carrying it. -/
def groupsOf (attrs : List String) (rows : List Row) :
    List (List (Option String) × List Row) :=
  (dedupKeys (rows.map (keyOf attrs))).map
    (fun k => (k, rows.filter (fun r => keyOf attrs r = k)))

/-- Arithmetic mean of a float column (`agg 'mean'`): NaN on an empty
group, exact otherwise. -/
def meanQ : List ℚ → FVal
  | [] => .nan
  | x :: xs => .num ((x :: xs).sum / ((x :: xs).length : ℚ))

/-- Sum of squared deviations from the mean, the common numerator of the
sample and population variances. -/
def sqDevSum (xs : List ℚ) : ℚ :=
  (xs.map (fun x => (x - xs.sum / (xs.length : ℚ)) ^ 2)).sum

/-- Sample standard deviation (`agg 'std'`, pandas default `ddof=1`): NaN
for a group of fewer than two observations, otherwise the square root of
the sample variance.  `Rat.sqrt` is exact on perfect squares — in
particular it is `0` exactly on variance `0` and positive on positive
variance, the only facts the theorems below use. -/
def sampleStd : List ℚ → FVal
  | [] => .nan
  | [_] => .nan
  | x :: y :: xs =>
      .num (Rat.sqrt
        (sqDevSum (x :: y :: xs) / (((x :: y :: xs).length : ℚ) - 1)))

/-- Population standard deviation (`scipy.stats.zscore` default `ddof=0`):
NaN on an empty group. -/
def popStd : List ℚ → FVal
  | [] => .nan
  | x :: xs =>
      .num (Rat.sqrt (sqDevSum (x :: xs) / ((x :: xs).length : ℚ)))

/-- The z-score `(x - mean) / std` of one observation within its group,
with float semantics: a constant group has `std = 0` and numerator `0`,
giving `0/0 = NaN`. -/
def zscore (xs : List ℚ) (x : ℚ) : FVal :=
  fdiv (.num (x - xs.sum / (xs.length : ℚ))) (popStd xs)

/-- The nested `remove_group_outliers` function of `_remove_outliers`:
keep the rows of one group whose `|zscore| < outlier_threshold`; a NaN
z-score compares false and the row is dropped. -/
def removeGroupOutliers (t : ℚ) (rs : List Row) : List Row :=
  let qs := rs.map Row.qty
  rs.filter (fun r => fltThB (fabs (zscore qs r.qty)) t)

/-- Embedding of `DynamicAnalysisService._remove_outliers`: group the rows
by `groupby_attributes`, filter each group by z-score, and concatenate the
surviving rows group by group (`groupby(...).apply(...).reset_index`). -/
def removeOutliers (attrs : List String) (t : ℚ) (rows : List Row) :
    List Row :=
  ((groupsOf attrs rows).map (fun g => removeGroupOutliers t g.2)).flatten

/-- One row of the intermediate `group_stats` table after
`df.groupby(...).agg({'ACTUALSQTY': ['mean', 'std', 'count']})`. -/
structure GStat where
  key : List (Option String)
  mean : FVal
  std : FVal
  count : ℕ
deriving DecidableEq, Repr

/-- The `group_stats` table: one aggregate row per group. -/
def statsOf (attrs : List String) (rows : List Row) : List GStat :=
  (groupsOf attrs rows).map (fun g =>
    let qs := g.2.map Row.qty
    { key := g.1, mean := meanQ qs, std := sampleStd qs,
      count := qs.length })

/-- Line `group_stats['CV'] = (group_stats['std'] / group_stats['mean'])
* 100` with float semantics. -/
def rawCV (std mean : FVal) : FVal :=
  fmul (fdiv std mean) (.num 100)

/-- Line `group_stats['CV'] = group_stats['CV'].fillna(0)` (comment in the
source: "When std is 0"). -/
def fillna0 : FVal → FVal
  | .nan => .num 0
  | v => v

/-- Line `group_stats['CV'] = group_stats['CV'].replace([np.inf, -np.inf],
999)` (comment in the source: "When mean is 0"). -/
def replaceInf999 : FVal → FVal
  | .inf => .num 999
  | .neginf => .num 999
  | v => v

/-- The `np.select(conditions, ['X', 'Y', 'Z'], default='Unknown')`
classification: the first matching condition wins, NaN comparisons are
false. -/
def npSelect (cv : FVal) (x y : ℚ) : Segment :=
  if fleB cv x then .X
  else if fltB x cv && fleB cv y then .Y
  else if fltB y cv then .Z
  else .Unknown

/-- One row of the final result table: the surviving group's aggregates
plus its `CV` and `XYZ_Segment` columns. -/
structure GroupResult where
  key : List (Option String)
  mean : FVal
  std : FVal
  count : ℕ
  cv : FVal
  segment : Segment
deriving DecidableEq, Repr

/-- CV computation and classification of one surviving `group_stats` row
(lines 234-249 of `dynamic_analysis_service.py`). -/
def classifyStat (cfg : SegmentationConfig) (s : GStat) : GroupResult :=
  let cv := replaceInf999 (fillna0 (rawCV s.std s.mean))
  { key := s.key, mean := s.mean, std := s.std, count := s.count,
    cv := cv, segment := npSelect cv cfg.x_threshold cfg.y_threshold }

/-- Float mean of a list of float values (pandas `Series.mean`): NaN on an
empty list.  (The lists this is applied to below never contain NaN, so
pandas' NaN-skipping does not come into play.) -/
def meanF (vs : List FVal) : FVal :=
  meanQ (vs.filterMap (fun v => match v with | .num q => some q | _ => none))

/-- Minimum of a list of group sizes as a float (`Series.min`): NaN on an
empty series, which is what `int(...)` then chokes on. -/
def fminNat (l : List ℕ) : FVal :=
  match l with
  | [] => .nan
  | a :: t => .num (t.foldl (fun m n => min m n) a : ℕ)

/-- Maximum of a list of group sizes as a float (`Series.max`). -/
def fmaxNat (l : List ℕ) : FVal :=
  match l with
  | [] => .nan
  | a :: t => .num (t.foldl (fun m n => max m n) a : ℕ)

/-- The `data_quality` report assembled by
`calculate_dynamic_xyz_segmentation` for a non-empty input (the dict
built at lines 254-268). -/
structure Report where
  total_records_analyzed : ℕ
  unique_segments : ℕ
  records_with_sufficient_history : ℕ
  records_excluded : ℕ
  avg_periods_per_segment : FVal
  min_periods_per_segment : ℕ
  max_periods_per_segment : ℕ
  segment_distribution : List (Segment × ℕ)
  avg_cv_by_segment : List (Segment × FVal)
deriving DecidableEq, Repr

/-- The `value_counts().to_dict()` of the `XYZ_Segment` column, as the
set of labels that occur with their multiplicities (dict ordering is
immaterial and not modelled). -/
def segmentDistribution (results : List GroupResult) : List (Segment × ℕ) :=
  ([Segment.X, .Y, .Z, .Unknown].map
    (fun s => (s, (results.filter (fun r => r.segment = s)).length))).filter
    (fun p => p.2 ≠ 0)

/-- The `avg_cv_by_segment` comprehension: for each of X, Y, Z that occurs
in the results, the mean CV of its groups. -/
def avgCVBySegment (results : List GroupResult) : List (Segment × FVal) :=
  ([Segment.X, .Y, .Z].filter
    (fun s => results.any (fun r => r.segment = s))).map
    (fun s => (s, meanF ((results.filter (fun r => r.segment = s)).map
      GroupResult.cv)))

/-- The report for the non-empty path: `len(df)` here is the row count
after outlier removal (the source rebinds `df`). -/
def mkReport (rowsAfter : List Row) (initialCount : ℕ)
    (results : List GroupResult) : Report :=
  let counts := results.map GroupResult.count
  { total_records_analyzed := rowsAfter.length
    unique_segments := results.length
    records_with_sufficient_history := results.length
    records_excluded := initialCount - results.length
    avg_periods_per_segment := meanF (counts.map (fun n => FVal.num n))
    min_periods_per_segment :=
      match counts with
      | [] => 0
      | a :: t => t.foldl (fun m n => min m n) a
    max_periods_per_segment :=
      match counts with
      | [] => 0
      | a :: t => t.foldl (fun m n => max m n) a
    segment_distribution := segmentDistribution results
    avg_cv_by_segment := avgCVBySegment results }

/-- The rows actually analysed: the input rows after the optional outlier
removal (`df = DynamicAnalysisService._remove_outliers(df, config)`). -/
def analysisRows (df : Frame) (cfg : SegmentationConfig) : List Row :=
  if cfg.remove_outliers then
    removeOutliers cfg.groupby_attributes cfg.outlier_threshold df.rows
  else df.rows

/-- The `group_stats` rows that survive the minimum-periods filter
(`group_stats[group_stats['count'] >= config.min_periods]`). -/
def survivingStats (df : Frame) (cfg : SegmentationConfig) : List GStat :=
  (statsOf cfg.groupby_attributes (analysisRows df cfg)).filter
    (fun s => cfg.min_periods ≤ s.count)

/-- Embedding of
`DynamicAnalysisService.calculate_dynamic_xyz_segmentation`.  An
`Except.error` models a raised exception; the report component is `none`
exactly when the source returns the empty dict `{}` (empty input). -/
def calculate (df : Frame) (cfg : SegmentationConfig) :
    Except String (List GroupResult × Option Report) :=
  if df.rows.isEmpty then .ok ([], none)
  else
    let missing := cfg.groupby_attributes.filter (· ∉ df.columns)
    if missing ≠ [] then
      .error ("Missing attributes in data: " ++ String.intercalate ", " missing)
    else
      let rows := analysisRows df cfg
      let allStats := statsOf cfg.groupby_attributes rows
      let results := (survivingStats df cfg).map (classifyStat cfg)
      .ok (results, some (mkReport rows allStats.length results))

/-- The result rows of an analysis run (`[]` when the run raised or the
input was empty). -/
def analysisResults (df : Frame) (cfg : SegmentationConfig) :
    List GroupResult :=
  match calculate df cfg with
  | .ok (rs, _) => rs
  | .error _ => []

/-- The `data_quality` report of an analysis run, `none` for the empty
dict `{}` or a raised exception. -/
def analysisReport (df : Frame) (cfg : SegmentationConfig) :
    Option Report :=
  match calculate df cfg with
  | .ok (_, rep) => rep
  | .error _ => none

/-- `int(...)` applied to a float (`int(periods_per_group.min())`):
raises `ValueError` on NaN and on infinities, truncates toward zero
otherwise. -/
def intOfF : FVal → Except String ℤ
  | .num q => .ok (if 0 ≤ q then q.floor else q.ceil)
  | .nan => .error "cannot convert float NaN to integer"
  | .inf => .error "cannot convert float infinity to integer"
  | .neginf => .error "cannot convert float infinity to integer"

/-- The `data_coverage` dict of `preview_segmentation`. -/
structure DataCoverage where
  total_records : ℕ
  unique_segments : ℕ
  avg_periods_per_segment : FVal
  min_periods_per_segment : ℤ
  max_periods_per_segment : ℤ
  segments_with_sufficient_data : ℕ
deriving DecidableEq, Repr

/-- The value `preview_segmentation` returns when it returns normally:
either the early error object (a dict with an `error` key, for missing
attributes) or the full preview dict. -/
inductive PreviewOutcome where
  | errObj (error : String) (warnings : List String)
  | result (estimated_segments : ℕ) (data_coverage : DataCoverage)
      (warnings : List String)
deriving DecidableEq, Repr

/-- Embedding of `DynamicAnalysisService.preview_segmentation`.  An
`Except.error` models an exception escaping the function (there is no
try/except inside it); `Except.ok` models a returned dict. -/
def preview (df : Frame) (cfg : SegmentationConfig) :
    Except String PreviewOutcome :=
  let missing := cfg.groupby_attributes.filter (· ∉ df.columns)
  if missing ≠ [] then
    .ok (.errObj
      ("Missing attributes: " ++ String.intercalate ", " missing)
      ["Attributes not found in data: " ++ String.intercalate ", " missing])
  else
    let sizes := (groupsOf cfg.groupby_attributes df.rows).map
      (fun g => g.2.length)
    let estimated := sizes.length
    let insufficient := (sizes.filter (· < cfg.min_periods)).length
    let warnings :=
      if 0 < insufficient then
        [toString insufficient ++ "/" ++ toString estimated ++
          " segment groups have fewer than " ++ toString cfg.min_periods ++
          " periods of data"]
      else []
    do
      let mn ← intOfF (fminNat sizes)
      let mx ← intOfF (fmaxNat sizes)
      let coverage : DataCoverage :=
        { total_records := df.rows.length
          unique_segments := estimated
          avg_periods_per_segment := meanF (sizes.map (fun n => FVal.num n))
          min_periods_per_segment := mn
          max_periods_per_segment := mx
          segments_with_sufficient_data :=
            (sizes.filter (fun n => cfg.min_periods ≤ n)).length }
      let warnings :=
        if 10000 < estimated then
          warnings ++ ["High number of segments (" ++ toString estimated ++
            "). Consider using fewer attributes or adding filters to reduce cardinality."]
        else warnings
      .ok (.result estimated coverage warnings)

/-! ### Write service (`app/services/sap_write_service.py`) -/

/-- The settings consumed by `SAPWriteService.__init__`: planning area,
target key figure and the null-handling switch. -/
structure WriteCfg where
  planning_area : String
  xyz_key_figure : String
  enable_null_handling : Bool
deriving DecidableEq, Repr

/-- A cell value as it appears in an outgoing record: stringified values
and the boolean null flag. -/
inductive PVal where
  | s (v : String)
  | b (v : Bool)
deriving DecidableEq, Repr

/-- One record of the navigation-property array: an ordered list of
(field name, value) pairs, mirroring insertion order of the Python dict. -/
def PRec := List (String × PVal)
deriving instance DecidableEq, Repr for PRec

/-- One row of the `segment_data` DataFrame handed to the write service:
every column has a cell, `none` modelling NaN/None. -/
def WRow := List (String × Option String)
deriving instance DecidableEq, Repr for WRow

/-- The `segment_data` DataFrame. -/
structure WFrame where
  columns : List String
  rows : List WRow
deriving DecidableEq, Repr

/-- `str(...)` applied to a cell (`str(row['XYZ_Segment'])`): a NaN cell
stringifies to "nan". -/
def strCell : Option String → String
  | some v => v
  | none => "nan"

/-- The `_prepare_payload` result: the transaction id, the
`AggregationLevelFieldsString` (kept both as the ordered field list and
as the comma-joined string), the record array, the optional
version/scenario context, and whether the `DoCommit` key is present. -/
structure Payload where
  tid : String
  aggFields : List String
  aggFieldsString : String
  nav : List PRec
  versionId : Option String
  scenarioId : Option String
  doCommit : Bool
deriving DecidableEq, Repr

/-- The dimension columns of `_prepare_payload`: every column except
`XYZ_Segment`, the period field and the statistics columns. -/
def dimensionCols (columns : List String) (periodField : String) :
    List String :=
  columns.filter
    (fun c => c ∉ ["XYZ_Segment", periodField, "mean", "std", "CV", "count"])

/-- The period value of a record: present values are normalised by
appending a midnight time when no `T` is present; a missing/NaN value
defaults to the current UTC timestamp (`now`, threaded as a parameter). -/
def periodValue (periodField : String) (now : String) (row : WRow) :
    String :=
  match row.lookup periodField with
  | some (some v) => if v.data.contains 'T' then v else v ++ "T00:00:00"
  | _ => now

/-- Construction of one outgoing record of `_prepare_payload` (the body
of the `for idx, row in segment_data.iterrows()` loop): dimensions whose
value is present (primary key first), then the key-figure value, then the
null flag (emitted unconditionally, with value `False`), then the period
field.  A missing `XYZ_Segment` column is a raised `KeyError`. -/
def recordOf (cfg : WriteCfg) (pk : String) (dims : List String)
    (periodField : String) (now : String) (row : WRow) :
    Except String PRec :=
  match row.lookup "XYZ_Segment" with
  | none => .error "KeyError: XYZ_Segment"
  | some segCell =>
    .ok ((match row.lookup pk with
          | some (some v) => [(pk, PVal.s v)]
          | _ => [])
      ++ (dims.filter (· ≠ pk)).filterMap
          (fun dim => match row.lookup dim with
            | some (some v) => some (dim, PVal.s v)
            | _ => none)
      ++ [(cfg.xyz_key_figure, PVal.s (strCell segCell))]
      ++ [(cfg.xyz_key_figure ++ "_isNull", PVal.b false)]
      ++ [(periodField, PVal.s (periodValue periodField now row))])

/-- Mapping a fallible step over a list, propagating the first raised
exception (the semantics of a Python `for` loop that appends to an
accumulator). -/
def mapExcept {α β : Type} (f : α → Except String β) :
    List α → Except String (List β)
  | [] => .ok []
  | a :: l =>
      match f a with
      | .error e => .error e
      | .ok b =>
          match mapExcept f l with
          | .error e => .error e
          | .ok bs => .ok (b :: bs)

/-- Python truthiness of the optional version/scenario ids
(`if version_id:`): an empty string is falsy and omitted. -/
def truthy : Option String → Option String
  | some v => if v = "" then none else some v
  | none => none

/-- Embedding of `SAPWriteService._prepare_payload`.  `Except.error`
models a raised exception (`ValueError` for a missing primary-key
column). -/
def preparePayload (cfg : WriteCfg) (data : WFrame) (tid : String)
    (pk : String) (versionId scenarioId : Option String)
    (periodField : String) (doCommit : Bool) (now : String) :
    Except String Payload :=
  if pk ∉ data.columns then
    .error ("Primary key " ++ pk ++ " not found in segment_data")
  else
    let dims := dimensionCols data.columns periodField
    let aggList :=
      pk :: (dims.filter (· ≠ pk))
        ++ [cfg.xyz_key_figure]
        ++ (if cfg.enable_null_handling
            then [cfg.xyz_key_figure ++ "_isNull"] else [])
        ++ [periodField]
    match mapExcept (recordOf cfg pk dims periodField now) data.rows with
    | .error e => .error e
    | .ok nav =>
        .ok { tid := tid
              aggFields := aggList
              aggFieldsString := String.intercalate "," aggList
              nav := nav
              versionId := truthy versionId
              scenarioId := truthy scenarioId
              doCommit := doCommit }

/-- The field names a record actually receives for a list of dimension
columns: exactly those whose cell is present (the per-dimension
`if dim in row.index and pd.notna(row[dim])` guard). -/
def presentKeys (row : WRow) (ds : List String) : List String :=
  ds.filterMap (fun dim =>
    match row.lookup dim with
    | some (some _) => some dim
    | _ => none)

/-- An outgoing request of a write transaction: a data POST to the
`...Trans` endpoint, the explicit `/commit` call, the `/GetExportResult`
call, or the `/InitiateParallelProcess` call. -/
inductive Req where
  | post (p : Payload)
  | commitCall (tid : String)
  | exportCall (tid : String)
  | initiateCall
deriving DecidableEq, Repr

/-- The outcome of a write operation: success, a raised error, or the
"Some batches failed" error of parallel mode carrying the failed batch
indices. -/
inductive WOut where
  | ok (tid : String) (records : ℕ)
  | err (msg : String)
  | failedBatches (idxs : List ℕ)
deriving DecidableEq, Repr

/-- The payloads of the data POSTs in a request trace. -/
def postsOf (trace : List Req) : List Payload :=
  trace.filterMap (fun r => match r with | .post p => some p | _ => none)

/-- Number of data POSTs in a trace whose payload carries `DoCommit`. -/
def doCommitCount (trace : List Req) : ℕ :=
  ((postsOf trace).filter (fun p => p.doCommit)).length

/-- Embedding of `SAPWriteService.write_segments_simple`: one POST whose
payload carries `do_commit=True`; a transport failure raises.  `sendOk`
models the network outcome of the single POST. -/
def simpleRun (cfg : WriteCfg) (data : WFrame) (pk : String)
    (versionId scenarioId : Option String) (periodField : String)
    (tid now : String) (sendOk : Bool) : List Req × WOut :=
  match preparePayload cfg data tid pk versionId scenarioId periodField
      true now with
  | .error e => ([], .err e)
  | .ok p =>
      ([.post p],
        if sendOk then .ok tid data.rows.length
        else .err "Failed to write data to SAP")

/-- The batch starts `range(0, record_count, batch_size)` (for a positive
step): `0, B, 2B, ...`, one start per batch, `ceil(N/B)` of them. -/
def batchStarts (N B : ℕ) : List ℕ :=
  (List.range ((N + B - 1) / B)).map (· * B)

/-- The batch split `[segment_data[i:i+batch_size] for i in
range(0, record_count, batch_size)]`. -/
def slices {α : Type} (l : List α) (B : ℕ) : List (List α) :=
  (batchStarts l.length B).map (fun i => (l.drop i).take B)

/-- The sequential batch loop of `write_segments_batched`: prepare and
POST each batch in order (`i` is the 1-based index used in log/error
messages); a prepare exception or a failed POST (`send i = false`) aborts
the loop with the error. -/
def batchLoop (mk : List WRow → Except String Payload) (send : ℕ → Bool) :
    List (List WRow) → ℕ → List Req × Option String
  | [], _ => ([], none)
  | b :: rest, i =>
      match mk b with
      | .error e => ([], some e)
      | .ok p =>
          if send i then
            let r := batchLoop mk send rest (i + 1)
            (.post p :: r.1, r.2)
          else ([.post p], some ("Failed to send batch " ++ toString i))

/-- Embedding of `SAPWriteService.write_segments_batched`: one
client-generated transaction id, all batches POSTed without commit, then
the explicit `/commit` call and the `/GetExportResult` call (the latter
never raises — it returns an "unknown" status on failure).  `send` and
`commitOk` model the per-request network outcomes. -/
def batchedRun (cfg : WriteCfg) (data : WFrame) (pk : String)
    (versionId scenarioId : Option String) (periodField : String)
    (tid now : String) (B : ℕ) (send : ℕ → Bool) (commitOk : Bool) :
    List Req × WOut :=
  let batches := slices data.rows B
  let r := batchLoop
    (fun b => preparePayload cfg ⟨data.columns, b⟩ tid pk versionId
      scenarioId periodField false now)
    send batches 1
  match r.2 with
  | some e => (r.1, .err e)
  | none =>
      if commitOk then
        (r.1 ++ [.commitCall tid, .exportCall tid],
          .ok tid data.rows.length)
      else (r.1 ++ [.commitCall tid], .err "Failed to commit transaction")

/-- The per-batch outcomes of parallel mode: each 1-indexed batch is
prepared and POSTed by a worker (`_send_batch_parallel` with
`do_commit=False`); a prepare exception or failed POST makes that index a
failed batch. -/
def parPrepared (cfg : WriteCfg) (data : WFrame) (pk : String)
    (periodField : String) (tid now : String) (B : ℕ) :
    List (ℕ × Except String Payload) :=
  let batches := slices data.rows B
  (List.range' 1 batches.length).zip
    (batches.map (fun b =>
      preparePayload cfg ⟨data.columns, b⟩ tid pk none none periodField
        false now))

/-- The failed batch indices collected from `as_completed` (listed here
in index order; arrival order is scheduler-dependent and carries no
information the source relies on). -/
def parFailed (send : ℕ → Bool)
    (prepared : List (ℕ × Except String Payload)) : List ℕ :=
  prepared.filterMap (fun ir =>
    match ir.2 with
    | .error _ => some ir.1
    | .ok _ => if send ir.1 then none else some ir.1)

/-- The POSTs actually issued in parallel mode: one per batch whose
payload preparation succeeded (every such POST is attempted regardless of
the other batches' outcomes; arrival order at the sink is modelled in
batch order). -/
def parPosts (cfg : WriteCfg) (data : WFrame) (pk : String)
    (periodField : String) (tid now : String) (B : ℕ) : List Req :=
  (parPrepared cfg data pk periodField tid now B).filterMap (fun ir =>
    match ir.2 with | .ok p => some (Req.post p) | .error _ => none)

/-- Embedding of `SAPWriteService.write_segments_parallel` after the
initiation call has produced `tid`: POST every batch concurrently, then —
only if no batch failed — commit and fetch the export result; any failed
batches abort the operation with their indices and no commit. -/
def parallelRun (cfg : WriteCfg) (data : WFrame) (pk : String)
    (periodField : String) (tid now : String) (B : ℕ)
    (send : ℕ → Bool) (commitOk : Bool) : List Req × WOut :=
  let posts := parPosts cfg data pk periodField tid now B
  let failed := parFailed send (parPrepared cfg data pk periodField tid now B)
  if failed ≠ [] then
    (Req.initiateCall :: posts, .failedBatches failed)
  else if commitOk then
    (Req.initiateCall :: posts ++ [.commitCall tid, .exportCall tid],
      .ok tid data.rows.length)
  else
    (Req.initiateCall :: posts ++ [.commitCall tid],
      .err "Failed to commit transaction")

/-! ### Concrete fixtures used by witnesses and counterexamples -/

/-- A product-level configuration with the default 10/25 thresholds. -/
def cfgA : SegmentationConfig :=
  { groupby_attributes := ["PRDID"], x_threshold := 10, y_threshold := 25,
    min_periods := 3, remove_outliers := false, outlier_threshold := 3 }

/-- A one-dimension observation row. -/
def rowOf (v : String) (q : ℚ) : Row :=
  { cells := [("PRDID", v)], qty := q }

/-- Three observations of value 0 for one product: an all-zero group. -/
def dfAllZero : Frame :=
  { columns := ["PRDID", "ACTUALSQTY"],
    rows := [rowOf "P1" 0, rowOf "P1" 0, rowOf "P1" 0] }

/-- Observations `[-1, 0, 1]` for one product: mean exactly 0 with a
nonzero standard deviation. -/
def dfMeanZero : Frame :=
  { columns := ["PRDID", "ACTUALSQTY"],
    rows := [rowOf "P1" (-1), rowOf "P1" 0, rowOf "P1" 1] }

/-- The result row the analysis produces for `dfAllZero` under `cfgA`. -/
def gAllZero : GroupResult :=
  { key := [some "P1"], mean := .num 0, std := .num 0, count := 3,
    cv := .num 0, segment := .X }

/-- The result row the analysis produces for `dfMeanZero` under `cfgA`. -/
def gMeanZero : GroupResult :=
  { key := [some "P1"], mean := .num 0, std := .num 1, count := 3,
    cv := .num 999, segment := .Z }

/-- An empty observation collection whose columns nevertheless include the
grouping attribute. -/
def dfEmpty : Frame :=
  { columns := ["PRDID", "ACTUALSQTY"], rows := [] }

/-- Write-service settings with null handling disabled. -/
def wcfgOff : WriteCfg :=
  { planning_area := "ZDEMO", xyz_key_figure := "ZXYZSEGMENT",
    enable_null_handling := false }

/-- Write-service settings with null handling enabled. -/
def wcfgOn : WriteCfg :=
  { planning_area := "ZDEMO", xyz_key_figure := "ZXYZSEGMENT",
    enable_null_handling := true }

/-- A fully populated segment row. -/
def wrowFull : WRow :=
  [("PRDID", some "P1"), ("XYZ_Segment", some "X"),
    ("PERIODID3_TSTAMP", some "2024-01-01T00:00:00")]

/-- A segment row whose primary-key value is null. -/
def wrowNullPk : WRow :=
  [("PRDID", none), ("XYZ_Segment", some "Y"),
    ("PERIODID3_TSTAMP", some "2024-01-01T00:00:00")]

/-- A one-record `segment_data` frame with all values present. -/
def wfFull : WFrame :=
  { columns := ["PRDID", "XYZ_Segment", "PERIODID3_TSTAMP"],
    rows := [wrowFull] }

/-- A one-record `segment_data` frame whose record has a null primary
key. -/
def wfNullPk : WFrame :=
  { columns := ["PRDID", "XYZ_Segment", "PERIODID3_TSTAMP"],
    rows := [wrowNullPk] }

end XYZSeg

namespace XYZSeg

/-! ### Helper lemmas -/

/-- `Rat.sqrt` is exact at `0`. -/
theorem ratSqrt_zero : Rat.sqrt 0 = 0 := by
  have h := Rat.sqrt_eq (0 : ℚ)
  rw [mul_zero, abs_zero] at h
  exact h

/-- `Rat.sqrt` is exact at `1`. -/
theorem ratSqrt_one : Rat.sqrt 1 = 1 := by
  have h := Rat.sqrt_eq (1 : ℚ)
  rw [mul_one, abs_one] at h
  exact h

/-- `Rat.sqrt` is exact on squares of nonnegative rationals. -/
theorem ratSqrt_sq (q : ℚ) (h : 0 ≤ q) : Rat.sqrt (q ^ 2) = q := by
  have h2 := Rat.sqrt_eq q
  rw [sq, h2, abs_of_nonneg h]

/-- Every result row comes from a surviving `group_stats` row. -/
theorem mem_analysisResults {df : Frame} {cfg : SegmentationConfig}
    {g : GroupResult} (hg : g ∈ analysisResults df cfg) :
    ∃ s ∈ survivingStats df cfg, g = classifyStat cfg s := by
  unfold analysisResults at hg
  cases h : calculate df cfg with
  | error e => rw [h] at hg; simp at hg
  | ok pr =>
      rw [h] at hg
      unfold calculate at h
      split at h
      · cases h; simp at hg
      · dsimp only at h
        split at h
        · cases h
        · cases h
          rw [List.mem_map] at hg
          obtain ⟨s, hs, rfl⟩ := hg
          exact ⟨s, hs, rfl⟩

/-- Every surviving `group_stats` row is the exact aggregate of some
group's observation list and passed the minimum-periods filter. -/
theorem mem_survivingStats {df : Frame} {cfg : SegmentationConfig}
    {s : GStat} (hs : s ∈ survivingStats df cfg) :
    ∃ qs : List ℚ, s.mean = meanQ qs ∧ s.std = sampleStd qs ∧
      s.count = qs.length ∧ cfg.min_periods ≤ s.count := by
  unfold survivingStats at hs
  rw [List.mem_filter] at hs
  obtain ⟨hmem, hcnt⟩ := hs
  unfold statsOf at hmem
  rw [List.mem_map] at hmem
  obtain ⟨grp, _, rfl⟩ := hmem
  refine ⟨grp.2.map Row.qty, rfl, rfl, rfl, ?_⟩
  simpa using hcnt

/-- A finite sample standard deviation is nonnegative. -/
theorem sampleStd_nonneg {qs : List ℚ} {s : ℚ}
    (h : sampleStd qs = .num s) : 0 ≤ s := by
  match qs, h with
  | x :: y :: t, h =>
      simp only [sampleStd, FVal.num.injEq] at h
      rw [← h]
      exact Rat.sqrt_nonneg _

/-- A group of at least two observations has a finite standard
deviation. -/
theorem sampleStd_isNum {qs : List ℚ} (h : 2 ≤ qs.length) :
    ∃ s, sampleStd qs = .num s := by
  match qs, h with
  | x :: y :: t, _ => exact ⟨_, rfl⟩

/-- CV pipeline on a zero mean and positive standard deviation:
`s / 0 = inf`, `inf * 100 = inf`, `fillna` leaves it, the replace step
forces `999`. -/
theorem cv_mean0_stdpos {s : ℚ} (hs : 0 < s) :
    replaceInf999 (fillna0 (rawCV (.num s) (.num 0))) = .num 999 := by
  norm_num [rawCV, FVal.fdiv, FVal.fmul, fillna0, replaceInf999, hs]

/-- CV pipeline on a zero mean and zero standard deviation:
`0 / 0 = NaN`, `NaN * 100 = NaN`, and `fillna(0)` — which runs before the
infinity replacement — forces `0`. -/
theorem cv_mean0_std0 :
    replaceInf999 (fillna0 (rawCV (.num 0) (.num 0))) = .num 0 := by
  norm_num [rawCV, FVal.fdiv, FVal.fmul, fillna0, replaceInf999]

/-- The CV pipeline always yields a finite value. -/
theorem pipeline_num (w : FVal) :
    ∃ v, replaceInf999 (fillna0 w) = .num v := by
  cases w
  · exact ⟨_, rfl⟩
  · exact ⟨999, rfl⟩
  · exact ⟨999, rfl⟩
  · exact ⟨0, rfl⟩

/-- `np.select` on a finite CV with ordered thresholds: the three bands
partition the line and the default is unreachable. -/
theorem npSelect_trichotomy {v x y : ℚ} (hxy : x < y) :
    (npSelect (.num v) x y = .X ↔ v ≤ x) ∧
    (npSelect (.num v) x y = .Y ↔ x < v ∧ v ≤ y) ∧
    (npSelect (.num v) x y = .Z ↔ y < v) ∧
    npSelect (.num v) x y ≠ .Unknown := by
  rcases le_or_lt v x with h1 | h1
  · have h2 : ¬ x < v := not_lt.2 h1
    have h3 : ¬ y < v := by push_neg; linarith
    simp [npSelect, FVal.fleB, FVal.fltB, h1, h2, h3]
  · rcases le_or_lt v y with h2 | h2
    · have h3 : ¬ v ≤ x := not_le.2 h1
      have h4 : ¬ y < v := not_lt.2 h2
      simp [npSelect, FVal.fleB, FVal.fltB, h1, h2, h3, h4]
    · have h3 : ¬ v ≤ x := by push_neg; linarith
      have h4 : ¬ v ≤ y := not_le.2 h2
      simp [npSelect, FVal.fleB, FVal.fltB, h2, h3, h4]

/-- Classification of `999` with thresholds within the configured
`[0, 100]` bounds: band Z. -/
theorem npSelect_999 {x y : ℚ} (hx : x ≤ 100) (hy : y ≤ 100) :
    npSelect (.num 999) x y = .Z := by
  have h1 : ¬ (999 : ℚ) ≤ x := by linarith
  have h2 : ¬ (999 : ℚ) ≤ y := by linarith
  have h3 : y < 999 := by linarith
  simp [npSelect, FVal.fleB, FVal.fltB, h1, h2, h3]

/-- Classification of `0` with a nonnegative X threshold: band X. -/
theorem npSelect_0 {x y : ℚ} (hx : 0 ≤ x) :
    npSelect (.num 0) x y = .X := by
  simp [npSelect, FVal.fleB, hx]

/-- Full evaluation of the analysis on the all-zero group. -/
theorem eval_dfAllZero : analysisResults dfAllZero cfgA = [gAllZero] := by
  norm_num [analysisResults, calculate, analysisRows, survivingStats,
    dfAllZero, cfgA, rowOf, statsOf, groupsOf, dedupKeys, keyOf, meanQ,
    sampleStd, sqDevSum, classifyStat, rawCV, FVal.fdiv, FVal.fmul,
    fillna0, replaceInf999, npSelect, FVal.fleB, FVal.fltB, List.filter,
    List.lookup, ratSqrt_zero, gAllZero]

/-- Full evaluation of the analysis on the mean-zero group `[-1, 0, 1]`. -/
theorem eval_dfMeanZero : analysisResults dfMeanZero cfgA = [gMeanZero] := by
  norm_num [analysisResults, calculate, analysisRows, survivingStats,
    dfMeanZero, cfgA, rowOf, statsOf, groupsOf, dedupKeys, keyOf, meanQ,
    sampleStd, sqDevSum, classifyStat, rawCV, FVal.fdiv, FVal.fmul,
    fillna0, replaceInf999, npSelect, FVal.fleB, FVal.fltB, List.filter,
    List.lookup, ratSqrt_one, gMeanZero]

/-- The fixture configuration satisfies the pydantic validators. -/
theorem cfgA_valid : ConfigValid cfgA := by
  norm_num [ConfigValid, cfgA]

/-! ### C1 -/

/-- C1 counterexample: the all-zero group `[0, 0, 0]` survives the
min-periods filter (count 3 ≥ 3) and has mean exactly 0, yet its CV is 0
— not the 999 sentinel — and it is classified X, not Z: `std` is 0, so
the CV is `0/0 = NaN` and `fillna(0)` (which runs before the
infinity-replacement) forces 0. -/
theorem c1_allzero_group_is_X :
    (analysisResults dfAllZero cfgA).map (fun r => (r.mean, r.cv, r.segment)) =
      [(FVal.num 0, FVal.num 0, Segment.X)] ∧
    Segment.X ≠ Segment.Z := by
  refine ⟨?_, by decide⟩
  rw [eval_dfAllZero]
  rfl

/-- C1 (amended): for a valid configuration, a surviving group whose mean
is exactly 0 gets the 999 sentinel and band Z precisely when its standard
deviation is nonzero; when its standard deviation is zero — the case of
every all-zero group — the NaN CV is filled to 0 by the std-zero rule
(which runs first) and the group is classified X. -/
theorem c1_mean_zero_classification (df : Frame) (cfg : SegmentationConfig)
    (hv : ConfigValid cfg) {g : GroupResult}
    (hg : g ∈ analysisResults df cfg) (hm : g.mean = .num 0) :
    (g.std ≠ .num 0 → g.cv = .num 999 ∧ g.segment = .Z) ∧
    (g.std = .num 0 → g.cv = .num 0 ∧ g.segment = .X) := by
  obtain ⟨hx0, hx100, hy0, hy100, hxy, hmp, _⟩ := hv
  obtain ⟨s, hs, rfl⟩ := mem_analysisResults hg
  obtain ⟨qs, hmean, hstd, hcount, hmin⟩ := mem_survivingStats hs
  have hm' : s.mean = .num 0 := hm
  have h2 : 2 ≤ qs.length := by omega
  obtain ⟨sv, hsv⟩ := sampleStd_isNum h2
  have hsv' : s.std = .num sv := by rw [hstd, hsv]
  have hnn : 0 ≤ sv := sampleStd_nonneg hsv
  constructor
  · intro hne
    have hne' : sv ≠ 0 := by
      intro h0
      exact hne (show s.std = .num 0 by rw [hsv', h0])
    have hpos : 0 < sv := lt_of_le_of_ne hnn (Ne.symm hne')
    have hcv : replaceInf999 (fillna0 (rawCV s.std s.mean)) = .num 999 := by
      rw [hsv', hm']
      exact cv_mean0_stdpos hpos
    refine ⟨hcv, ?_⟩
    show npSelect (replaceInf999 (fillna0 (rawCV s.std s.mean)))
      cfg.x_threshold cfg.y_threshold = .Z
    rw [hcv]
    exact npSelect_999 hx100 hy100
  · intro heq
    have heq' : s.std = FVal.num 0 := heq
    have hcv : replaceInf999 (fillna0 (rawCV s.std s.mean)) = .num 0 := by
      rw [heq', hm']
      exact cv_mean0_std0
    refine ⟨hcv, ?_⟩
    show npSelect (replaceInf999 (fillna0 (rawCV s.std s.mean)))
      cfg.x_threshold cfg.y_threshold = .X
    rw [hcv]
    exact npSelect_0 hx0

/-- C1 witness: the group `[-1, 0, 1]` (mean 0, std 1 ≠ 0) is forced to
CV 999 and band Z. -/
theorem c1_mean_zero_classification_witness :
    ConfigValid cfgA ∧
    gMeanZero ∈ analysisResults dfMeanZero cfgA ∧
    gMeanZero.mean = .num 0 ∧ gMeanZero.std ≠ .num 0 ∧
    gMeanZero.cv = .num 999 ∧ gMeanZero.segment = .Z := by
  have hmem : gMeanZero ∈ analysisResults dfMeanZero cfgA := by
    rw [eval_dfMeanZero]
    exact List.mem_singleton_self _
  have hm : gMeanZero.mean = .num 0 := rfl
  have hstd : gMeanZero.std ≠ .num 0 := by
    norm_num [gMeanZero]
  have h := (c1_mean_zero_classification dfMeanZero cfgA cfgA_valid hmem hm).1 hstd
  exact ⟨cfgA_valid, hmem, hm, hstd, h.1, h.2⟩

/-! ### C3 -/

/-- C3: for every valid configuration and every surviving group, the
assigned segment obeys the trichotomy on the stored CV — X iff
`CV ≤ x_threshold`, Y iff `x_threshold < CV ≤ y_threshold`, Z iff
`CV > y_threshold` — and the catch-all Unknown label is never
assigned. -/
theorem c3_segment_trichotomy (df : Frame) (cfg : SegmentationConfig)
    (hv : ConfigValid cfg) :
    ∀ g ∈ analysisResults df cfg,
      g.segment ≠ .Unknown ∧
      ∃ v, g.cv = .num v ∧
        (g.segment = .X ↔ v ≤ cfg.x_threshold) ∧
        (g.segment = .Y ↔ cfg.x_threshold < v ∧ v ≤ cfg.y_threshold) ∧
        (g.segment = .Z ↔ cfg.y_threshold < v) := by
  intro g hg
  obtain ⟨s, _, rfl⟩ := mem_analysisResults hg
  obtain ⟨v, hnum⟩ := pipeline_num (rawCV s.std s.mean)
  obtain ⟨t1, t2, t3, t4⟩ :=
    npSelect_trichotomy (v := v) (x := cfg.x_threshold)
      (y := cfg.y_threshold) hv.2.2.2.2.1
  have hcv : (classifyStat cfg s).cv = .num v := hnum
  have hseg : (classifyStat cfg s).segment =
      npSelect (.num v) cfg.x_threshold cfg.y_threshold := by
    show npSelect (replaceInf999 (fillna0 (rawCV s.std s.mean)))
      cfg.x_threshold cfg.y_threshold = _
    rw [hnum]
  refine ⟨by rw [hseg]; exact t4, v, hcv, ?_, ?_, ?_⟩
  · rw [hseg]; exact t1
  · rw [hseg]; exact t2
  · rw [hseg]; exact t3

/-- C3 witness: the trichotomy instantiated on the surviving all-zero
group (CV 0 ≤ 10 → X). -/
theorem c3_segment_trichotomy_witness :
    ConfigValid cfgA ∧
    gAllZero ∈ analysisResults dfAllZero cfgA ∧
    (gAllZero.segment ≠ .Unknown ∧
      ∃ v, gAllZero.cv = .num v ∧
        (gAllZero.segment = .X ↔ v ≤ cfgA.x_threshold) ∧
        (gAllZero.segment = .Y ↔
          cfgA.x_threshold < v ∧ v ≤ cfgA.y_threshold) ∧
        (gAllZero.segment = .Z ↔ cfgA.y_threshold < v)) := by
  have hmem : gAllZero ∈ analysisResults dfAllZero cfgA := by
    rw [eval_dfAllZero]
    exact List.mem_singleton_self _
  exact ⟨cfgA_valid, hmem,
    c3_segment_trichotomy dfAllZero cfgA cfgA_valid gAllZero hmem⟩

/-! ### C2 -/

/-- The mean of a constant list is its constant value. -/
theorem mean_of_constant {qs : List ℚ} {c : ℚ} (hne : qs ≠ [])
    (hall : ∀ x ∈ qs, x = c) : qs.sum / (qs.length : ℚ) = c := by
  have hrep : qs = List.replicate qs.length c :=
    List.eq_replicate_of_mem hall
  have hlen : (qs.length : ℚ) ≠ 0 := by
    have : qs.length ≠ 0 := fun h => hne (List.eq_nil_of_length_eq_zero h)
    exact_mod_cast this
  rw [hrep]
  rw [List.sum_replicate, List.length_replicate, nsmul_eq_mul]
  field_simp

/-- A constant group has zero squared-deviation sum. -/
theorem sqDevSum_of_constant {qs : List ℚ} {c : ℚ} (hne : qs ≠ [])
    (hall : ∀ x ∈ qs, x = c) : sqDevSum qs = 0 := by
  unfold sqDevSum
  apply List.sum_eq_zero
  intro x hx
  rw [List.mem_map] at hx
  obtain ⟨q, hq, rfl⟩ := hx
  rw [hall q hq, mean_of_constant hne hall]
  ring

/-- In a constant group every z-score is NaN (`0 / 0`). -/
theorem zscore_of_constant {qs : List ℚ} {c : ℚ} (hne : qs ≠ [])
    (hall : ∀ x ∈ qs, x = c) {x : ℚ} (hx : x ∈ qs) :
    zscore qs x = .nan := by
  obtain ⟨q, qs', rfl⟩ := List.exists_cons_of_ne_nil hne
  have hstd : popStd (q :: qs') = .num 0 := by
    show FVal.num _ = _
    rw [sqDevSum_of_constant hne hall, zero_div, ratSqrt_zero]
  unfold zscore
  rw [hstd, hall x hx, mean_of_constant hne hall]
  norm_num [FVal.fdiv]

/-- C2 counterexample: a group with a single observation (fewer than 3)
does not pass through outlier removal unmodified — it is removed
entirely, for the in-range threshold 3. -/
theorem c2_singleton_group_removed :
    removeOutliers ["PRDID"] 3 [rowOf "P1" 5] = [] ∧
    [rowOf "P1" 5] ≠ ([] : List Row) ∧
    (3 / 2 : ℚ) ≤ 3 ∧ (3 : ℚ) ≤ 5 := by
  refine ⟨?_, by simp, by norm_num, by norm_num⟩
  have hz : zscore [(5 : ℚ)] 5 = .nan :=
    zscore_of_constant (c := 5) (by simp) (by simp) (by simp)
  norm_num [removeOutliers, groupsOf, dedupKeys, keyOf, rowOf,
    removeGroupOutliers, List.filter, List.lookup, hz, FVal.fabs,
    FVal.fltThB]

/-- C2 (amended): groups with fewer than 3 observations are not exempt
from outlier removal.  A group all of whose observations are equal — in
particular every single-observation group — is removed entirely: its
z-scores are `0/0 = NaN` and `NaN < threshold` is false.  A
two-observation group with two distinct values has z-scores `±1` and does
pass through unmodified for every threshold in `[1.5, 5]`. -/
theorem c2_small_group_outlier_removal (t : ℚ) :
    (∀ (rs : List Row) (c : ℚ), rs ≠ [] → (∀ r ∈ rs, r.qty = c) →
      removeGroupOutliers t rs = []) ∧
    (∀ r₁ r₂ : Row, r₁.qty ≠ r₂.qty → 3 / 2 ≤ t →
      removeGroupOutliers t [r₁, r₂] = [r₁, r₂]) := by
  constructor
  · intro rs c hne hall
    unfold removeGroupOutliers
    rw [List.filter_eq_nil_iff]
    intro r hr
    have hq : r.qty ∈ rs.map Row.qty := List.mem_map_of_mem _ hr
    have hmapne : rs.map Row.qty ≠ [] := by
      intro h
      exact hne (List.map_eq_nil_iff.mp h)
    have hallq : ∀ x ∈ rs.map Row.qty, x = c := by
      intro x hx
      rw [List.mem_map] at hx
      obtain ⟨r', hr', rfl⟩ := hx
      exact hall r' hr'
    rw [zscore_of_constant hmapne hallq hq]
    simp [FVal.fabs, FVal.fltThB]
  · intro r₁ r₂ hab ht
    set a := r₁.qty with ha
    set b := r₂.qty with hb
    have hd : (a - b) / 2 ≠ 0 := by
      intro h
      apply hab
      have := sub_eq_zero.mp (by linarith [h] : a - b = 0)
      exact this
    have harg : sqDevSum [a, b] / ((List.length [a, b] : ℕ) : ℚ) =
        |(a - b) / 2| ^ 2 := by
      rw [sq_abs]
      simp [sqDevSum]
      ring
    have hstd : popStd [a, b] = .num |(a - b) / 2| := by
      show FVal.num _ = _
      rw [harg, ratSqrt_sq _ (abs_nonneg _)]
    have habs : |(a - b) / 2| ≠ 0 := abs_ne_zero.mpr hd
    have hz₁ : FVal.fabs (zscore [a, b] a) = FVal.num 1 := by
      unfold zscore
      rw [hstd]
      have hnum : a - List.sum [a, b] / ((List.length [a, b] : ℕ) : ℚ) =
          (a - b) / 2 := by
        simp
        ring
      rw [hnum]
      simp only [FVal.fdiv, if_pos habs]
      rw [show ((a - b) / 2) / |(a - b) / 2| = ((a - b) / 2) / |(a - b) / 2|
        from rfl]
      simp only [FVal.fabs]
      rw [abs_div, abs_abs, div_self habs]
    have hz₂ : FVal.fabs (zscore [a, b] b) = FVal.num 1 := by
      unfold zscore
      rw [hstd]
      have hnum : b - List.sum [a, b] / ((List.length [a, b] : ℕ) : ℚ) =
          -((a - b) / 2) := by
        simp
        ring
      rw [hnum]
      simp only [FVal.fdiv, if_pos habs]
      simp only [FVal.fabs]
      rw [abs_div, abs_neg, abs_abs, div_self habs]
    have hkeep : FVal.fltThB (FVal.num 1) t = true := by
      simp only [FVal.fltThB, decide_eq_true_eq]
      linarith
    unfold removeGroupOutliers
    rw [List.filter_eq_self]
    intro r hr
    rcases List.mem_pair.mp hr with h | h
    · rw [h, show List.map Row.qty [r₁, r₂] = [a, b] from rfl,
        show r₁.qty = a from rfl, hz₁]
      exact hkeep
    · rw [h, show List.map Row.qty [r₁, r₂] = [a, b] from rfl,
        show r₂.qty = b from rfl, hz₂]
      exact hkeep

/-- C2 witness: the two-distinct-observations branch at threshold 3 on a
concrete pair. -/
theorem c2_small_group_outlier_removal_witness :
    (rowOf "P1" 5).qty ≠ (rowOf "P1" 9).qty ∧ (3 / 2 : ℚ) ≤ 3 ∧
    removeGroupOutliers 3 [rowOf "P1" 5, rowOf "P1" 9] =
      [rowOf "P1" 5, rowOf "P1" 9] := by
  have h1 : (rowOf "P1" 5).qty ≠ (rowOf "P1" 9).qty := by
    norm_num [rowOf]
  have h2 : (3 / 2 : ℚ) ≤ 3 := by norm_num
  exact ⟨h1, h2,
    (c2_small_group_outlier_removal 3).2 (rowOf "P1" 5) (rowOf "P1" 9)
      h1 h2⟩

/-! ### C6 -/

/-- C6 counterexample: on an empty observation collection the analysis
returns the empty dict `{}` as its report — it has no
`total_records_analyzed` field at all (report component `none`), so in
particular no report whose `total_records_analyzed` equals 0 is
returned. -/
theorem c6_empty_report_has_no_fields :
    calculate dfEmpty cfgA = .ok ([], none) ∧
    ¬ ∃ rep : Report, analysisReport dfEmpty cfgA = some rep ∧
        rep.total_records_analyzed = 0 := by
  have h : calculate dfEmpty cfgA = .ok ([], none) := rfl
  refine ⟨h, ?_⟩
  rintro ⟨rep, hrep, -⟩
  rw [show analysisReport dfEmpty cfgA = none from rfl] at hrep
  cases hrep

/-- C6 (amended): analyze on an empty observation collection raises no
error and returns an empty result list together with the *empty* report
dict (no fields at all — in particular the `total_records_analyzed` field
is absent rather than equal to 0). -/
theorem c6_empty_input_empty_report (cols : List String)
    (cfg : SegmentationConfig) :
    calculate ⟨cols, []⟩ cfg = .ok ([], none) := rfl

/-! ### C10 -/

/-- C10: preview on an empty observation collection whose columns include
all `groupby_attributes` raises an exception — `int(...)` on the NaN
minimum of the empty per-group size series — rather than returning a
preview result or an error object; analyze on the same input returns the
empty result instead. -/
theorem c10_preview_empty_raises (cols : List String)
    (cfg : SegmentationConfig)
    (h : ∀ a ∈ cfg.groupby_attributes, a ∈ cols) :
    preview ⟨cols, []⟩ cfg = .error "cannot convert float NaN to integer" ∧
    calculate ⟨cols, []⟩ cfg = .ok ([], none) := by
  refine ⟨?_, rfl⟩
  have hcond : ¬ ∃ x ∈ cfg.groupby_attributes, x ∉ cols := by
    push_neg
    exact h
  unfold preview
  simp only [groupsOf, dedupKeys, fminNat, intOfF, List.map_nil,
    List.filter_nil, List.length_nil, ne_eq, List.filter_eq_nil_iff,
    decide_eq_true_eq, not_forall]
  rw [if_neg (by simpa using hcond)]
  rfl

/-- C10 witness: the concrete empty frame with the `PRDID` column and the
fixture configuration. -/
theorem c10_preview_empty_raises_witness :
    (∀ a ∈ cfgA.groupby_attributes, a ∈ dfEmpty.columns) ∧
    preview ⟨dfEmpty.columns, []⟩ cfgA =
      .error "cannot convert float NaN to integer" ∧
    calculate ⟨dfEmpty.columns, []⟩ cfgA = .ok ([], none) := by
  have h : ∀ a ∈ cfgA.groupby_attributes, a ∈ dfEmpty.columns := by
    simp [cfgA, dfEmpty]
  exact ⟨h, c10_preview_empty_raises dfEmpty.columns cfgA h⟩

/-! ### Write-service helper lemmas -/

/-- A successful `mapExcept` preserves the length. -/
theorem mapExcept_ok_length {α β : Type} {f : α → Except String β} :
    ∀ {l : List α} {out : List β}, mapExcept f l = .ok out →
      out.length = l.length := by
  intro l
  induction l with
  | nil => intro out h; cases h; rfl
  | cons a l ih =>
      intro out h
      unfold mapExcept at h
      cases hfa : f a with
      | error e => rw [hfa] at h; cases h
      | ok b =>
          rw [hfa] at h
          cases hml : mapExcept f l with
          | error e => rw [hml] at h; cases h
          | ok bs =>
              rw [hml] at h
              cases h
              simp [ih hml]

/-- Every output element of a successful `mapExcept` is the image of some
input element. -/
theorem mapExcept_ok_mem {α β : Type} {f : α → Except String β} :
    ∀ {l : List α} {out : List β}, mapExcept f l = .ok out →
      ∀ b ∈ out, ∃ a ∈ l, f a = .ok b := by
  intro l
  induction l with
  | nil => intro out h; cases h; intro b hb; cases hb
  | cons a l ih =>
      intro out h
      unfold mapExcept at h
      cases hfa : f a with
      | error e => rw [hfa] at h; cases h
      | ok b0 =>
          rw [hfa] at h
          cases hml : mapExcept f l with
          | error e => rw [hml] at h; cases h
          | ok bs =>
              rw [hml] at h
              cases h
              intro b hb
              rcases List.mem_cons.mp hb with rfl | hb
              · exact ⟨a, List.mem_cons_self a l, hfa⟩
              · obtain ⟨a', ha', hfa'⟩ := ih hml b hb
                exact ⟨a', List.mem_cons_of_mem a ha', hfa'⟩

/-- Every input element of a successful `mapExcept` produced some output
element. -/
theorem mapExcept_ok_forall {α β : Type} {f : α → Except String β} :
    ∀ {l : List α} {out : List β}, mapExcept f l = .ok out →
      ∀ a ∈ l, ∃ b ∈ out, f a = .ok b := by
  intro l
  induction l with
  | nil => intro out h a ha; cases ha
  | cons a0 l ih =>
      intro out h
      unfold mapExcept at h
      cases hfa : f a0 with
      | error e => rw [hfa] at h; cases h
      | ok b0 =>
          rw [hfa] at h
          cases hml : mapExcept f l with
          | error e => rw [hml] at h; cases h
          | ok bs =>
              rw [hml] at h
              cases h
              intro a ha
              rcases List.mem_cons.mp ha with rfl | ha
              · exact ⟨b0, List.mem_cons_self b0 bs, hfa⟩
              · obtain ⟨b, hb, hfb⟩ := ih hml a ha
                exact ⟨b, List.mem_cons_of_mem b0 hb, hfb⟩

/-- What a successful `_prepare_payload` guarantees: the primary-key
column existed, the record array is the per-row record construction, and
the field descriptor has its fixed composition. -/
theorem preparePayload_ok {cfg : WriteCfg} {data : WFrame}
    {tid pk : String} {vid sid : Option String} {pf now : String}
    {dc : Bool} {p : Payload}
    (h : preparePayload cfg data tid pk vid sid pf dc now = .ok p) :
    pk ∈ data.columns ∧
    mapExcept (recordOf cfg pk (dimensionCols data.columns pf) pf now)
      data.rows = .ok p.nav ∧
    p.aggFields =
      pk :: ((dimensionCols data.columns pf).filter (· ≠ pk))
        ++ [cfg.xyz_key_figure]
        ++ (if cfg.enable_null_handling
            then [cfg.xyz_key_figure ++ "_isNull"] else [])
        ++ [pf] ∧
    p.tid = tid ∧ p.doCommit = dc := by
  unfold preparePayload at h
  by_cases hmem : pk ∉ data.columns
  · rw [if_pos hmem] at h; cases h
  · rw [if_neg hmem] at h
    dsimp only at h
    cases hnav : mapExcept
        (recordOf cfg pk (dimensionCols data.columns pf) pf now)
        data.rows with
    | error e => rw [hnav] at h; cases h
    | ok nav =>
        rw [hnav] at h
        cases h
        refine ⟨not_not.mp hmem, ?_, rfl, rfl, rfl⟩
        simp [hnav]

/-- The field names of a record built by `recordOf`: present primary key,
present remaining dimensions, key figure, null flag (always), period. -/
theorem recordOf_ok_keys {cfg : WriteCfg} {pk : String}
    {dims : List String} {pf now : String} {row : WRow} {rec : PRec}
    (h : recordOf cfg pk dims pf now row = .ok rec) :
    rec.map Prod.fst =
      (match row.lookup pk with
        | some (some _) => [pk]
        | _ => []) ++
      presentKeys row (dims.filter (· ≠ pk)) ++
      [cfg.xyz_key_figure, cfg.xyz_key_figure ++ "_isNull", pf] := by
  unfold recordOf at h
  cases hseg : row.lookup "XYZ_Segment" with
  | none => rw [hseg] at h; cases h
  | some segCell =>
      rw [hseg] at h
      cases h
      simp only [List.map_append, List.map_filterMap]
      have hfm :
          (dims.filter (· ≠ pk)).filterMap
            (fun dim =>
              Option.map Prod.fst
                (match row.lookup dim with
                  | some (some v) => some (dim, PVal.s v)
                  | _ => none)) =
          presentKeys row (dims.filter (· ≠ pk)) := by
        unfold presentKeys
        apply List.filterMap_congr
        intro d _
        cases hl : row.lookup d with
        | none => simp
        | some o => cases o <;> simp
      rw [hfm]
      cases hpk : row.lookup pk with
      | none => simp
      | some o => cases o <;> simp

/-- Keys produced by `presentKeys` come from the requested dimension
list. -/
theorem presentKeys_sub {row : WRow} {ds : List String} :
    ∀ k ∈ presentKeys row ds, k ∈ ds := by
  intro k hk
  unfold presentKeys at hk
  rw [List.mem_filterMap] at hk
  obtain ⟨d, hd, hmatch⟩ := hk
  cases hl : row.lookup d with
  | none => rw [hl] at hmatch; cases hmatch
  | some o =>
      cases o with
      | none => rw [hl] at hmatch; cases hmatch
      | some v => rw [hl] at hmatch; cases hmatch; exact hd

/-- When every requested dimension is present in a row, the record
receives exactly the requested dimension fields in order. -/
theorem presentKeys_all_present {row : WRow} {ds : List String}
    (h : ∀ d ∈ ds, ∃ v, row.lookup d = some (some v)) :
    presentKeys row ds = ds := by
  induction ds with
  | nil => rfl
  | cons d ds ih =>
      obtain ⟨v, hv⟩ := h d (List.mem_cons_self d ds)
      unfold presentKeys
      rw [List.filterMap_cons, hv]
      simp only
      rw [show (ds.filterMap fun dim =>
          match row.lookup dim with
          | some (some _) => some dim
          | _ => none) = presentKeys row ds from rfl]
      rw [ih (fun d' hd' => h d' (List.mem_cons_of_mem d hd'))]

/-! ### C4 -/

/-- C4 counterexample: with null handling disabled, the descriptor lists
primary key → key figure → period, but the emitted record also carries
the `_isNull` field (it is inserted unconditionally), so the record's
field list does not match the descriptor. -/
theorem c4_record_descriptor_mismatch :
    (preparePayload wcfgOff wfFull "T1" "PRDID" none none
        "PERIODID3_TSTAMP" false "NOW").toOption.map
      (fun p => (p.aggFields, p.nav.map (fun r => r.map Prod.fst))) =
      some (["PRDID", "ZXYZSEGMENT", "PERIODID3_TSTAMP"],
        [["PRDID", "ZXYZSEGMENT", "ZXYZSEGMENT_isNull",
          "PERIODID3_TSTAMP"]]) ∧
    (["PRDID", "ZXYZSEGMENT", "ZXYZSEGMENT_isNull", "PERIODID3_TSTAMP"] :
        List String) ≠
      ["PRDID", "ZXYZSEGMENT", "PERIODID3_TSTAMP"] := by
  exact ⟨rfl, by decide⟩

/-- C4 (amended): the descriptor lists exactly primary key, remaining
dimension columns in order, key figure, the `_isNull` flag only when null
handling is enabled, and the period field last.  Each record, however,
always contains the `_isNull` field (it is written unconditionally), so
record fields match the descriptor exactly when null handling is enabled
and every dimension value is present; with null handling disabled the
records carry one field the descriptor does not list. -/
theorem c4_descriptor_and_record_fields (cfg : WriteCfg) (data : WFrame)
    (tid pk : String) (vid sid : Option String) (pf now : String)
    (dc : Bool) (p : Payload)
    (hp : preparePayload cfg data tid pk vid sid pf dc now = .ok p) :
    (p.aggFields =
      pk :: ((dimensionCols data.columns pf).filter (· ≠ pk))
        ++ [cfg.xyz_key_figure]
        ++ (if cfg.enable_null_handling
            then [cfg.xyz_key_figure ++ "_isNull"] else [])
        ++ [pf]) ∧
    (∀ r ∈ p.nav, (cfg.xyz_key_figure ++ "_isNull") ∈ r.map Prod.fst) ∧
    (cfg.enable_null_handling = true →
      (∀ row ∈ data.rows, ∀ c ∈ data.columns,
        ∃ v, row.lookup c = some (some v)) →
      ∀ r ∈ p.nav, r.map Prod.fst = p.aggFields) := by
  obtain ⟨hpk, hnav, hagg, -, -⟩ := preparePayload_ok hp
  refine ⟨hagg, ?_, ?_⟩
  · intro r hr
    obtain ⟨row, hrow, hrec⟩ := mapExcept_ok_mem hnav r hr
    rw [recordOf_ok_keys hrec]
    simp
  · intro hen hall r hr
    obtain ⟨row, hrow, hrec⟩ := mapExcept_ok_mem hnav r hr
    rw [recordOf_ok_keys hrec, hagg, hen]
    have hdims : ∀ d ∈ (dimensionCols data.columns pf).filter (· ≠ pk),
        ∃ v, row.lookup d = some (some v) := by
      intro d hd
      apply hall row hrow
      have hd' : d ∈ dimensionCols data.columns pf :=
        List.mem_of_mem_filter hd
      exact List.mem_of_mem_filter hd'
    rw [presentKeys_all_present hdims]
    obtain ⟨v, hv⟩ := hall row hrow pk hpk
    rw [hv]
    simp

/-- C4 witness: with null handling enabled and a fully populated row the
record fields equal the descriptor. -/
theorem c4_descriptor_and_record_fields_witness :
    ∃ p, preparePayload wcfgOn wfFull "T1" "PRDID" none none
        "PERIODID3_TSTAMP" false "NOW" = .ok p ∧
      ∀ r ∈ p.nav, r.map Prod.fst = p.aggFields := by
  refine ⟨_, rfl, ?_⟩
  have hall : ∀ row ∈ wfFull.rows, ∀ c ∈ wfFull.columns,
      ∃ v, row.lookup c = some (some v) := by
    intro row hrow c hc
    simp only [wfFull, List.mem_singleton] at hrow
    subst hrow
    simp only [wfFull, List.mem_cons, List.not_mem_nil, or_false] at hc
    rcases hc with rfl | rfl | rfl
    · exact ⟨"P1", rfl⟩
    · exact ⟨"X", rfl⟩
    · exact ⟨"2024-01-01T00:00:00", rfl⟩
  exact (c4_descriptor_and_record_fields wcfgOn wfFull "T1" "PRDID" none
    none "PERIODID3_TSTAMP" "NOW" false _ rfl).2.2 rfl hall

/-! ### C5 -/

/-- C5 counterexample: a record whose primary-key value is null is not
rejected — the build succeeds and the record is included in the payload
with the primary-key field silently omitted. -/
theorem c5_null_pk_silently_included :
    (preparePayload wcfgOff wfNullPk "T1" "PRDID" none none
        "PERIODID3_TSTAMP" false "NOW").toOption.map
      (fun p => p.nav.map (fun r => r.map Prod.fst)) =
      some [["ZXYZSEGMENT", "ZXYZSEGMENT_isNull", "PERIODID3_TSTAMP"]] ∧
    "PRDID" ∉ (["ZXYZSEGMENT", "ZXYZSEGMENT_isNull", "PERIODID3_TSTAMP"] :
      List String) := by
  exact ⟨rfl, by decide⟩

/-- C5 (amended): only a missing primary-key *column* is rejected with a
descriptive error.  A record whose primary-key *value* is missing or null
is silently included in the payload with the primary-key field omitted
(assuming the primary key does not collide with the key-figure, null-flag
or period field names). -/
theorem c5_pk_rejection_behaviour (cfg : WriteCfg) (data : WFrame)
    (tid pk : String) (vid sid : Option String) (pf now : String)
    (dc : Bool)
    (hkf : pk ≠ cfg.xyz_key_figure)
    (hnf : pk ≠ cfg.xyz_key_figure ++ "_isNull")
    (hpf : pk ≠ pf) :
    (pk ∉ data.columns →
      preparePayload cfg data tid pk vid sid pf dc now =
        .error ("Primary key " ++ pk ++ " not found in segment_data")) ∧
    (∀ p, preparePayload cfg data tid pk vid sid pf dc now = .ok p →
      p.nav.length = data.rows.length ∧
      ∀ row ∈ data.rows,
        (row.lookup pk = some none ∨ row.lookup pk = none) →
        ∃ rec ∈ p.nav,
          recordOf cfg pk (dimensionCols data.columns pf) pf now row =
            .ok rec ∧
          pk ∉ rec.map Prod.fst) := by
  constructor
  · intro hmem
    unfold preparePayload
    rw [if_pos hmem]
  · intro p hp
    obtain ⟨hpk, hnav, -, -, -⟩ := preparePayload_ok hp
    refine ⟨by rw [mapExcept_ok_length hnav], ?_⟩
    intro row hrow hnull
    obtain ⟨rec, hrecmem, hrec⟩ := mapExcept_ok_forall hnav row hrow
    refine ⟨rec, hrecmem, hrec, ?_⟩
    rw [recordOf_ok_keys hrec]
    intro hbad
    have hbad' : pk ∈ presentKeys row
        ((dimensionCols data.columns pf).filter (· ≠ pk)) ++
        [cfg.xyz_key_figure, cfg.xyz_key_figure ++ "_isNull", pf] := by
      rcases hnull with h | h <;> rw [h] at hbad <;> simpa using hbad
    rcases List.mem_append.mp hbad' with hk | hk
    · have hk' := presentKeys_sub pk hk
      rw [List.mem_filter] at hk'
      have : pk ≠ pk := by simpa using hk'.2
      exact this rfl
    · simp only [List.mem_cons, List.not_mem_nil, or_false] at hk
      rcases hk with hk | hk | hk
      · exact hkf hk
      · exact hnf hk
      · exact hpf hk

/-- C5 witness: the null-primary-key record is included without the
`PRDID` field; a frame without the `PRDID` column is rejected. -/
theorem c5_pk_rejection_behaviour_witness :
    ("PRDID" ≠ wcfgOff.xyz_key_figure ∧
      "PRDID" ≠ wcfgOff.xyz_key_figure ++ "_isNull" ∧
      "PRDID" ≠ "PERIODID3_TSTAMP") ∧
    ∃ p, preparePayload wcfgOff wfNullPk "T1" "PRDID" none none
        "PERIODID3_TSTAMP" false "NOW" = .ok p ∧
      p.nav.length = wfNullPk.rows.length ∧
      ∃ rec ∈ p.nav, "PRDID" ∉ rec.map Prod.fst := by
  have h1 : "PRDID" ≠ wcfgOff.xyz_key_figure := by decide
  have h2 : "PRDID" ≠ wcfgOff.xyz_key_figure ++ "_isNull" := by decide
  have h3 : "PRDID" ≠ "PERIODID3_TSTAMP" := by decide
  refine ⟨⟨h1, h2, h3⟩, _, rfl, ?_⟩
  have h := (c5_pk_rejection_behaviour wcfgOff wfNullPk "T1" "PRDID" none
    none "PERIODID3_TSTAMP" "NOW" false h1 h2 h3).2 _ rfl
  obtain ⟨hlen, hrow⟩ := h
  obtain ⟨rec, hrecmem, -, hnotin⟩ :=
    hrow wrowNullPk (List.mem_singleton_self _) (Or.inl rfl)
  exact ⟨hlen, rec, hrecmem, hnotin⟩

/-! ### C7 -/

/-- Concatenating the first `c` chunks of size `B` recovers a list of at
most `c * B` elements. -/
theorem chunks_flatten_aux {α : Type} (B : ℕ) :
    ∀ (c : ℕ) (l : List α), l.length ≤ c * B →
      ((List.range c).map (fun k => (l.drop (k * B)).take B)).flatten = l := by
  intro c
  induction c with
  | zero =>
      intro l hl
      rw [Nat.zero_mul, Nat.le_zero] at hl
      rw [List.length_eq_zero] at hl
      subst hl
      rfl
  | succ c ih =>
      intro l hl
      rw [List.range_succ_eq_map, List.map_cons, List.map_map,
        List.flatten_cons]
      have hmaps : (List.range c).map
          ((fun k => (l.drop (k * B)).take B) ∘ Nat.succ) =
          (List.range c).map (fun k => ((l.drop B).drop (k * B)).take B) := by
        apply List.map_congr_left
        intro k _
        simp only [Function.comp_apply]
        rw [List.drop_drop, Nat.succ_mul, Nat.add_comm (k * B) B]
      rw [hmaps]
      have hlen : (l.drop B).length ≤ c * B := by
        rw [List.length_drop]
        have he : (c + 1) * B = c * B + B := by ring
        omega
      rw [ih (l.drop B) hlen]
      simp only [Nat.zero_mul, List.drop_zero]
      exact List.take_append_drop B l

/-- `N ≤ ceil(N/B) * B` for a positive batch size. -/
theorem le_ceil_mul (N B : ℕ) (hB : 0 < B) :
    N ≤ ((N + B - 1) / B) * B := by
  rcases Nat.eq_zero_or_pos N with rfl | hN
  · exact Nat.zero_le _
  · have h := Nat.div_add_mod (N + B - 1) B
    have hm : (N + B - 1) % B < B := Nat.mod_lt _ hB
    rw [Nat.mul_comm]
    omega

/-- The batch split produces exactly `ceil(N/B)` batches. -/
theorem slices_length {α : Type} (l : List α) (B : ℕ) :
    (slices l B).length = (l.length + B - 1) / B := by
  simp [slices, batchStarts]

/-- The concatenation of the batches is the original record list. -/
theorem slices_flatten {α : Type} (l : List α) (B : ℕ) (hB : 0 < B) :
    (slices l B).flatten = l := by
  unfold slices batchStarts
  rw [List.map_map]
  have h : (fun i => (l.drop i).take B) ∘ (· * B) =
      fun k => (l.drop (k * B)).take B := rfl
  rw [h]
  exact chunks_flatten_aux B _ l (le_ceil_mul l.length B hB)

/-- Every POST issued by the sequential batch loop carries a payload that
some batch prepared. -/
theorem batchLoop_posts {mk : List WRow → Except String Payload}
    {send : ℕ → Bool} :
    ∀ {batches : List (List WRow)} {i : ℕ} {p : Payload},
      p ∈ postsOf (batchLoop mk send batches i).1 →
      ∃ b ∈ batches, mk b = .ok p := by
  intro batches
  induction batches with
  | nil => intro i p hp; simp [batchLoop, postsOf] at hp
  | cons b rest ih =>
      intro i p hp
      unfold batchLoop at hp
      cases hmk : mk b with
      | error e => rw [hmk] at hp; simp [postsOf] at hp
      | ok pb =>
          rw [hmk] at hp
          dsimp only at hp
          by_cases hs : send i
          · rw [if_pos hs] at hp
            simp only [postsOf, List.filterMap_cons] at hp
            rcases List.mem_cons.mp hp with rfl | hp
            · exact ⟨b, List.mem_cons_self b rest, hmk⟩
            · obtain ⟨b', hb', hmk'⟩ := ih hp
              exact ⟨b', List.mem_cons_of_mem b hb', hmk'⟩
          · rw [if_neg hs] at hp
            simp only [postsOf, List.filterMap_cons, List.filterMap_nil] at hp
            rcases List.mem_singleton.mp hp with rfl
            exact ⟨b, List.mem_cons_self b rest, hmk⟩

/-- Every POST of a batched run carries a payload prepared from one of
the batches (with `do_commit=False` and the run's transaction id). -/
theorem batchedRun_posts {cfg : WriteCfg} {data : WFrame} {pk : String}
    {vid sid : Option String} {pf tid now : String} {B : ℕ}
    {send : ℕ → Bool} {commitOk : Bool} {p : Payload}
    (hp : p ∈ postsOf
      (batchedRun cfg data pk vid sid pf tid now B send commitOk).1) :
    ∃ b ∈ slices data.rows B,
      preparePayload cfg ⟨data.columns, b⟩ tid pk vid sid pf false now =
        .ok p := by
  unfold batchedRun at hp
  dsimp only at hp
  cases hloop : (batchLoop
      (fun b => preparePayload cfg ⟨data.columns, b⟩ tid pk vid sid pf
        false now) send (slices data.rows B) 1).2 with
  | some e =>
      rw [hloop] at hp
      exact batchLoop_posts hp
  | none =>
      rw [hloop] at hp
      by_cases hc : commitOk
      · rw [if_pos hc] at hp
        simp only [postsOf, List.filterMap_append] at hp
        rw [List.mem_append] at hp
        rcases hp with hp | hp
        · exact batchLoop_posts hp
        · simp at hp
      · rw [if_neg hc] at hp
        simp only [postsOf, List.filterMap_append] at hp
        rw [List.mem_append] at hp
        rcases hp with hp | hp
        · exact batchLoop_posts hp
        · simp at hp

/-- Every POST of a parallel run carries a payload prepared from one of
the batches (with `do_commit=False` and the run's transaction id). -/
theorem parallelRun_posts {cfg : WriteCfg} {data : WFrame} {pk : String}
    {pf tid now : String} {B : ℕ} {send : ℕ → Bool} {commitOk : Bool}
    {p : Payload}
    (hp : p ∈ postsOf
      (parallelRun cfg data pk pf tid now B send commitOk).1) :
    ∃ b ∈ slices data.rows B,
      preparePayload cfg ⟨data.columns, b⟩ tid pk none none pf false now =
        .ok p := by
  have hex : ∃ r ∈ parPosts cfg data pk pf tid now B,
      (match r with
        | Req.post q => some q
        | _ => none) = some p := by
    unfold parallelRun at hp
    dsimp only at hp
    split at hp
    · simpa [postsOf] using hp
    · split at hp
      · simpa [postsOf] using hp
      · simpa [postsOf] using hp
  obtain ⟨r, hr, hmatch⟩ := hex
  unfold parPosts at hr
  rw [List.mem_filterMap] at hr
  obtain ⟨ir, hir, hmk⟩ := hr
  cases hex : ir.2 with
  | error e => rw [hex] at hmk; cases hmk
  | ok q =>
      rw [hex] at hmk
      cases hmk
      simp only at hmatch
      cases hmatch
      unfold parPrepared at hir
      have h2 := (List.of_mem_zip hir).2
      rw [List.mem_map] at h2
      obtain ⟨b, hb, hprep⟩ := h2
      refine ⟨b, hb, ?_⟩
      rw [hprep, hex]

/-- C7: for a nonempty record list and positive batch size, the batched
and parallel dispatchers split the records into exactly `ceil(N/B)`
batches, the concatenation of the batches is the original record list
(each record exactly once — no duplication, no loss), and every batch
POST of either mode carries the run's transaction id. -/
theorem c7_batch_split (cfg : WriteCfg) (data : WFrame) (pk : String)
    (vid sid : Option String) (pf tid now : String) (B : ℕ)
    (send : ℕ → Bool) (commitOk : Bool)
    (hB : 0 < B) (_hN : 0 < data.rows.length) :
    (slices data.rows B).length = (data.rows.length + B - 1) / B ∧
    (slices data.rows B).flatten = data.rows ∧
    (∀ p ∈ postsOf
        (batchedRun cfg data pk vid sid pf tid now B send commitOk).1,
      p.tid = tid) ∧
    (∀ p ∈ postsOf
        (parallelRun cfg data pk pf tid now B send commitOk).1,
      p.tid = tid) := by
  refine ⟨slices_length data.rows B, slices_flatten data.rows B hB, ?_, ?_⟩
  · intro p hp
    obtain ⟨b, -, hprep⟩ := batchedRun_posts hp
    exact (preparePayload_ok hprep).2.2.2.1
  · intro p hp
    obtain ⟨b, -, hprep⟩ := parallelRun_posts hp
    exact (preparePayload_ok hprep).2.2.2.1

/-- C7 witness: the split/transaction-id properties instantiated on a
one-record frame with batch size 1. -/
theorem c7_batch_split_witness :
    0 < 1 ∧ 0 < wfFull.rows.length ∧
    ((slices wfFull.rows 1).length = (wfFull.rows.length + 1 - 1) / 1 ∧
     (slices wfFull.rows 1).flatten = wfFull.rows ∧
     (∀ p ∈ postsOf
         (batchedRun wcfgOff wfFull "PRDID" none none "PERIODID3_TSTAMP"
           "T1" "NOW" 1 (fun _ => true) true).1,
       p.tid = "T1") ∧
     (∀ p ∈ postsOf
         (parallelRun wcfgOff wfFull "PRDID" "PERIODID3_TSTAMP" "T1" "NOW"
           1 (fun _ => true) true).1,
       p.tid = "T1")) := by
  refine ⟨by decide, by decide, ?_⟩
  exact c7_batch_split wcfgOff wfFull "PRDID" none none "PERIODID3_TSTAMP"
    "T1" "NOW" 1 (fun _ => true) true (by decide) (by decide)

/-! ### C8 -/

/-- A trace all of whose POSTs carry `do_commit=False` has no request
with the `DoCommit` flag. -/
theorem doCommitCount_eq_zero {trace : List Req}
    (h : ∀ p ∈ postsOf trace, p.doCommit = false) :
    doCommitCount trace = 0 := by
  unfold doCommitCount
  rw [List.length_eq_zero, List.filter_eq_nil_iff]
  intro p hp
  simp [h p hp]

/-- Every element of the parallel POST list is a data POST. -/
theorem parPosts_shape {cfg : WriteCfg} {data : WFrame} {pk : String}
    {pf tid now : String} {B : ℕ} :
    ∀ r ∈ parPosts cfg data pk pf tid now B, ∃ q, r = Req.post q := by
  intro r hr
  unfold parPosts at hr
  rw [List.mem_filterMap] at hr
  obtain ⟨ir, -, h⟩ := hr
  cases hir : ir.2 with
  | error e => rw [hir] at h; cases h
  | ok q => rw [hir] at h; cases h; exact ⟨q, rfl⟩

/-- C8: the `do_commit` flag is set on at most one outgoing request per
transaction.  In simple mode the single POST carries `do_commit=true` and
no separate commit request is ever issued; in batched and parallel modes
every batch POST carries `do_commit=false`, so the commit, when reached,
is only the separate explicit `/commit` call. -/
theorem c8_do_commit_discipline (cfg : WriteCfg) (data : WFrame)
    (pk : String) (vid sid : Option String) (pf tid now : String) (B : ℕ)
    (send : ℕ → Bool) (commitOk sendOk : Bool) :
    (∀ p ∈ postsOf (simpleRun cfg data pk vid sid pf tid now sendOk).1,
      p.doCommit = true) ∧
    doCommitCount (simpleRun cfg data pk vid sid pf tid now sendOk).1 ≤ 1 ∧
    (∀ t, Req.commitCall t ∉
      (simpleRun cfg data pk vid sid pf tid now sendOk).1) ∧
    (∀ p ∈ postsOf
        (batchedRun cfg data pk vid sid pf tid now B send commitOk).1,
      p.doCommit = false) ∧
    doCommitCount
      (batchedRun cfg data pk vid sid pf tid now B send commitOk).1 = 0 ∧
    (∀ p ∈ postsOf (parallelRun cfg data pk pf tid now B send commitOk).1,
      p.doCommit = false) ∧
    doCommitCount
      (parallelRun cfg data pk pf tid now B send commitOk).1 = 0 := by
  have hbat : ∀ p ∈ postsOf
      (batchedRun cfg data pk vid sid pf tid now B send commitOk).1,
      p.doCommit = false := by
    intro p hp
    obtain ⟨b, -, hprep⟩ := batchedRun_posts hp
    exact (preparePayload_ok hprep).2.2.2.2
  have hpar : ∀ p ∈ postsOf
      (parallelRun cfg data pk pf tid now B send commitOk).1,
      p.doCommit = false := by
    intro p hp
    obtain ⟨b, -, hprep⟩ := parallelRun_posts hp
    exact (preparePayload_ok hprep).2.2.2.2
  refine ⟨?_, ?_, ?_, hbat, doCommitCount_eq_zero hbat, hpar,
    doCommitCount_eq_zero hpar⟩
  · intro p hp
    unfold simpleRun at hp
    cases hprep : preparePayload cfg data tid pk vid sid pf true now with
    | error e => rw [hprep] at hp; simp [postsOf] at hp
    | ok q =>
        rw [hprep] at hp
        simp only [postsOf, List.filterMap_cons, List.filterMap_nil] at hp
        rcases List.mem_singleton.mp hp with rfl
        exact (preparePayload_ok hprep).2.2.2.2
  · unfold doCommitCount simpleRun
    cases hprep : preparePayload cfg data tid pk vid sid pf true now with
    | error e => simp [postsOf]
    | ok q =>
        simp only [postsOf, List.filterMap_cons, List.filterMap_nil]
        cases hdc : q.doCommit <;> simp [List.filter, hdc]
  · intro t
    unfold simpleRun
    cases hprep : preparePayload cfg data tid pk vid sid pf true now with
    | error e => simp
    | ok q => simp

/-- C8 witness: the flag count at a concrete instance of each mode. -/
theorem c8_do_commit_discipline_witness :
    doCommitCount
      (simpleRun wcfgOff wfFull "PRDID" none none "PERIODID3_TSTAMP" "T1"
        "NOW" true).1 = 1 ∧
    doCommitCount
      (batchedRun wcfgOff wfFull "PRDID" none none "PERIODID3_TSTAMP" "T1"
        "NOW" 1 (fun _ => true) true).1 = 0 ∧
    doCommitCount
      (parallelRun wcfgOff wfFull "PRDID" "PERIODID3_TSTAMP" "T1" "NOW" 1
        (fun _ => true) true).1 = 0 ∧
    (∀ t, Req.commitCall t ∉
      (simpleRun wcfgOff wfFull "PRDID" none none "PERIODID3_TSTAMP" "T1"
        "NOW" true).1) := by
  have h := c8_do_commit_discipline wcfgOff wfFull "PRDID" none none
    "PERIODID3_TSTAMP" "T1" "NOW" 1 (fun _ => true) true true
  exact ⟨by decide, h.2.2.2.2.1, h.2.2.2.2.2.2, h.2.2.1⟩

/-! ### C9 -/

/-- C9: in parallel mode the commit is attempted only after every batch
has been acknowledged: if any batch failed, the operation is reported as
failed carrying the failed batch indices and no commit call appears in
the trace; if no batch failed, the trace is exactly the initiation call,
then all batch POSTs, then the commit call (followed by the
result-verification call when the commit is acknowledged).  The commit
call appears in the trace exactly when no batch failed. -/
theorem c9_parallel_commit_barrier (cfg : WriteCfg) (data : WFrame)
    (pk pf tid now : String) (B : ℕ) (send : ℕ → Bool) (commitOk : Bool) :
    (parFailed send (parPrepared cfg data pk pf tid now B) ≠ [] →
      (parallelRun cfg data pk pf tid now B send commitOk).2 =
        .failedBatches
          (parFailed send (parPrepared cfg data pk pf tid now B)) ∧
      ∀ t, Req.commitCall t ∉
        (parallelRun cfg data pk pf tid now B send commitOk).1) ∧
    (parFailed send (parPrepared cfg data pk pf tid now B) = [] →
      (parallelRun cfg data pk pf tid now B send commitOk).1 =
        Req.initiateCall :: parPosts cfg data pk pf tid now B ++
          Req.commitCall tid ::
            (if commitOk then [Req.exportCall tid] else [])) ∧
    (Req.commitCall tid ∈
        (parallelRun cfg data pk pf tid now B send commitOk).1 ↔
      parFailed send (parPrepared cfg data pk pf tid now B) = []) := by
  have h1 : parFailed send (parPrepared cfg data pk pf tid now B) ≠ [] →
      (parallelRun cfg data pk pf tid now B send commitOk).2 =
        .failedBatches
          (parFailed send (parPrepared cfg data pk pf tid now B)) ∧
      ∀ t, Req.commitCall t ∉
        (parallelRun cfg data pk pf tid now B send commitOk).1 := by
    intro hf
    unfold parallelRun
    dsimp only
    rw [if_pos hf]
    refine ⟨rfl, ?_⟩
    intro t hmem
    rcases List.mem_cons.mp hmem with h | h
    · cases h
    · obtain ⟨q, hq⟩ := parPosts_shape _ h
      cases hq
  have h2 : parFailed send (parPrepared cfg data pk pf tid now B) = [] →
      (parallelRun cfg data pk pf tid now B send commitOk).1 =
        Req.initiateCall :: parPosts cfg data pk pf tid now B ++
          Req.commitCall tid ::
            (if commitOk then [Req.exportCall tid] else []) := by
    intro hf
    unfold parallelRun
    dsimp only
    rw [if_neg (fun h => h hf)]
    cases hc : commitOk <;> simp
  refine ⟨h1, h2, ?_⟩
  by_cases hf : parFailed send (parPrepared cfg data pk pf tid now B) = []
  · rw [h2 hf]
    simp [hf]
  · rw [iff_false_intro hf, iff_false]
    exact fun hmem => (h1 hf).2 tid hmem

/-- C9 witness: with the single batch failing, the run reports the failed
index 1 and never commits; the hypothesis `failed ≠ []` is discharged on
the concrete run. -/
theorem c9_parallel_commit_barrier_witness :
    parFailed (fun _ => false)
      (parPrepared wcfgOff wfFull "PRDID" "PERIODID3_TSTAMP" "T1" "NOW" 1) =
      [1] ∧
    (parallelRun wcfgOff wfFull "PRDID" "PERIODID3_TSTAMP" "T1" "NOW" 1
        (fun _ => false) true).2 =
      .failedBatches
        (parFailed (fun _ => false)
          (parPrepared wcfgOff wfFull "PRDID" "PERIODID3_TSTAMP" "T1"
            "NOW" 1)) ∧
    ∀ t, Req.commitCall t ∉
      (parallelRun wcfgOff wfFull "PRDID" "PERIODID3_TSTAMP" "T1" "NOW" 1
        (fun _ => false) true).1 := by
  refine ⟨by decide, ?_⟩
  exact (c9_parallel_commit_barrier wcfgOff wfFull "PRDID"
    "PERIODID3_TSTAMP" "T1" "NOW" 1 (fun _ => false) true).1 (by decide)

end XYZSeg
